import Mathlib

/-!
# Verification of the `ObjectUtils` style-state module (dxf-viewer)

A shallow embedding of the revertible visual-state operations declared in
`src/public/libs/dxf-viewer/dist/types/core/utils/ObjectUtils.d.ts`.
The repository ships only the TypeScript declaration file, so the method
signatures below follow the declarations while the operation bodies are
modelled from the specification's description of each operation
(`spec.md` sections 3, 4, 6 and 7); each such definition carries a
doc comment starting with `Modelled from the spec:`.

The scene graph is modelled as a finite tree of nodes, each node carrying
the fields the module reads and writes: a numeric id, a name, a visibility
flag, an optional material (opacity / transparent / side / wireframe), the
per-node `userData` undo annotations, a node kind (mesh / group / line)
and the outline-decoration tag.  Children are kept in a dedicated list
type declared mutually with the node type so that every operation is
structurally recursive and computable by the kernel.
-/

set_option maxHeartbeats 1000000

/-- Face-side setting of a material (`THREE.Side`). -/
inductive Side where
  | FrontSide
  | BackSide
  | DoubleSide
deriving DecidableEq, Repr

/-- The material fields the module reads and writes: opacity, the
transparent flag, the face side, and the wireframe flag.  Opacity is a
rational since the module only stores and restores it, never computes
with it. -/
structure Material where
  opacity : Rat
  transparent : Bool
  side : Side
  wireframe : Bool
deriving DecidableEq, Repr

/-- The undo annotations the module stashes in a node's `userData`,
one slot per mutation kind (spec section 3): `materialForWireframe`,
`originalMaterial`, `originalSide`, `visibleForFloorsOriginal`. -/
structure UserData where
  materialForWireframe : Option Material := none
  originalMaterial : Option Material := none
  originalSide : Option Side := none
  visibleForFloorsOriginal : Option Bool := none
deriving DecidableEq, Repr

/-- Classification of a node's shape (mesh / group / line), spec
section 9 "polymorphic mutation application". -/
inductive NodeKind where
  | Mesh
  | Group
  | Line
deriving DecidableEq, Repr

/-- The per-node fields of a scene node: id, name, visible flag,
material slot, `userData` annotations, kind, and the tag marking a
node as an outline decoration (spec section 3). -/
structure NodeData where
  id : Int
  name : String := ""
  visible : Bool := true
  material : Option Material := none
  userData : UserData := {}
  kind : NodeKind := NodeKind.Group
  isOutline : Bool := false
deriving DecidableEq, Repr

mutual

/-- A scene node: its own data plus an ordered list of children
(`THREE.Object3D` subtree). -/
inductive SceneNode where
  | node (data : NodeData) (children : SceneNodeList)

/-- An ordered list of sibling scene nodes. -/
inductive SceneNodeList where
  | nil
  | cons (c : SceneNode) (cs : SceneNodeList)

end

/-- Snapshot produced by an opacity mutation, per the `MaterialInfo`
interface of `ObjectUtils.d.ts`: the node id plus the pre-mutation
opacity, transparent flag and side. -/
structure MaterialInfo where
  id : Int
  material : Option Material := none
  clonedMaterial : Option Material := none
  opacity : Rat
  transparent : Bool
  side : Side
deriving DecidableEq, Repr

/-- Options of `createOutlines` per `ObjectUtils.d.ts`. -/
structure OutlineOptions where
  onlyVisible : Bool
  meshOnly : Bool
deriving DecidableEq, Repr

mutual

def SceneNode.decEq : (a b : SceneNode) → Decidable (a = b)
  | .node d cs, .node d2 cs2 =>
    match decEq d d2 with
    | isFalse h => isFalse (by intro he; cases he; exact h rfl)
    | isTrue h =>
      match SceneNodeList.decEq cs cs2 with
      | isFalse h2 => isFalse (by intro he; cases he; exact h2 rfl)
      | isTrue h2 => isTrue (by rw [h, h2])

def SceneNodeList.decEq : (a b : SceneNodeList) → Decidable (a = b)
  | .nil, .nil => isTrue rfl
  | .nil, .cons _ _ => isFalse (by intro h; cases h)
  | .cons _ _, .nil => isFalse (by intro h; cases h)
  | .cons c cs, .cons c2 cs2 =>
    match SceneNode.decEq c c2 with
    | isFalse h => isFalse (by intro he; cases he; exact h rfl)
    | isTrue h =>
      match SceneNodeList.decEq cs cs2 with
      | isFalse h2 => isFalse (by intro he; cases he; exact h2 rfl)
      | isTrue h2 => isTrue (by rw [h, h2])

end

instance : DecidableEq SceneNode := SceneNode.decEq

instance : DecidableEq SceneNodeList := SceneNodeList.decEq

/-- The node's own data. -/
def SceneNode.data : SceneNode → NodeData
  | .node d _ => d

/-- The node's children. -/
def SceneNode.children : SceneNode → SceneNodeList
  | .node _ cs => cs

/-- Builds a children list from a plain list, for concrete scenes. -/
def SceneNodeList.ofList : List SceneNode → SceneNodeList
  | [] => .nil
  | c :: cs => .cons c (SceneNodeList.ofList cs)

/-- The children list as a plain list. -/
def SceneNodeList.toList : SceneNodeList → List SceneNode
  | .nil => []
  | .cons c cs => c :: SceneNodeList.toList cs

/-- Concatenation of children lists. -/
def SceneNodeList.append : SceneNodeList → SceneNodeList → SceneNodeList
  | .nil, l => l
  | .cons c cs, l => .cons c (SceneNodeList.append cs l)

mutual

/-- All node data in the subtree, in depth-first pre-order
(the node itself first, then its children left to right). -/
def treeDatas : SceneNode → List NodeData
  | .node d cs => d :: treeDatasList cs

/-- `treeDatas` over a list of sibling subtrees. -/
def treeDatasList : SceneNodeList → List NodeData
  | .nil => []
  | .cons c cs => treeDatas c ++ treeDatasList cs

end

mutual

/-- Applies a per-node update to every node of the subtree, preserving
the tree shape.  Every traverse-and-mutate operation of the module whose
update is node-local is an instance of this map. -/
def mapNodes (f : NodeData → NodeData) : SceneNode → SceneNode
  | .node d cs => .node (f d) (mapNodesList f cs)

/-- `mapNodes` over a list of sibling subtrees. -/
def mapNodesList (f : NodeData → NodeData) : SceneNodeList → SceneNodeList
  | .nil => .nil
  | .cons c cs => .cons (mapNodes f c) (mapNodesList f cs)

end

mutual

/-- Applies a per-node update to every node of the subtree while
collecting one optional record per node, in depth-first pre-order.
Captures the capture-and-mutate shape of `setObjectOpacity`. -/
def mapCollect (f : NodeData → NodeData × Option MaterialInfo) :
    SceneNode → SceneNode × List MaterialInfo
  | .node d cs =>
    let r := mapCollectList f cs
    (.node (f d).1 r.1, (f d).2.toList ++ r.2)

/-- `mapCollect` over a list of sibling subtrees. -/
def mapCollectList (f : NodeData → NodeData × Option MaterialInfo) :
    SceneNodeList → SceneNodeList × List MaterialInfo
  | .nil => (.nil, [])
  | .cons c cs =>
    let r := mapCollect f c
    let rs := mapCollectList f cs
    (.cons r.1 rs.1, r.2 ++ rs.2)

end

mutual

/-- Induction over a scene node from induction hypotheses on every child. -/
theorem SceneNode.inductionOn {motive : SceneNode → Prop}
    (h : ∀ d cs, (∀ c ∈ cs.toList, motive c) → motive (.node d cs)) :
    ∀ t, motive t
  | .node d cs => h d cs (SceneNode.inductionOnList h cs)

/-- Auxiliary to `SceneNode.inductionOn`: the motive holds on every
member of a children list. -/
theorem SceneNode.inductionOnList {motive : SceneNode → Prop}
    (h : ∀ d cs, (∀ c ∈ cs.toList, motive c) → motive (.node d cs)) :
    ∀ cs : SceneNodeList, ∀ c ∈ cs.toList, motive c
  | .nil => by intro c hc; cases hc
  | .cons c0 cs => by
    intro c hc
    simp only [SceneNodeList.toList, List.mem_cons] at hc
    rcases hc with hc | hc
    · exact hc ▸ SceneNode.inductionOn h c0
    · exact SceneNode.inductionOnList h cs c hc

end


/-- Plain list induction over a children list. -/
theorem SceneNodeList.listInduction {motive : SceneNodeList → Prop}
    (hnil : motive .nil)
    (hcons : ∀ c cs, motive cs → motive (.cons c cs)) :
    ∀ cs, motive cs
  | .nil => hnil
  | .cons c cs => hcons c cs (SceneNodeList.listInduction hnil hcons cs)

theorem treeDatas_node (d : NodeData) (cs : SceneNodeList) :
    treeDatas (.node d cs) = d :: treeDatasList cs := rfl

theorem treeDatasList_nil : treeDatasList .nil = [] := rfl

theorem treeDatasList_cons (c : SceneNode) (cs : SceneNodeList) :
    treeDatasList (.cons c cs) = treeDatas c ++ treeDatasList cs := rfl

theorem self_mem_treeDatas (d : NodeData) (cs : SceneNodeList) :
    d ∈ treeDatas (.node d cs) := by
  rw [treeDatas_node]
  exact List.mem_cons_self d _

theorem mem_treeDatas_left {d : NodeData} {c : SceneNode}
    (d0 : NodeData) (cs : SceneNodeList) (hd : d ∈ treeDatas c) :
    d ∈ treeDatas (.node d0 (.cons c cs)) := by
  rw [treeDatas_node, treeDatasList_cons]
  exact List.mem_cons_of_mem _ (List.mem_append.2 (Or.inl hd))

theorem mem_treeDatas_right {d : NodeData}
    (d0 : NodeData) (c : SceneNode) {cs : SceneNodeList}
    (hd : d ∈ treeDatasList cs) :
    d ∈ treeDatas (.node d0 (.cons c cs)) := by
  rw [treeDatas_node, treeDatasList_cons]
  exact List.mem_cons_of_mem _ (List.mem_append.2 (Or.inr hd))

mutual

theorem treeDatas_mapNodes (f : NodeData → NodeData) :
    ∀ t, treeDatas (mapNodes f t) = (treeDatas t).map f
  | .node d cs => by
    simp only [mapNodes, treeDatas, List.map_cons, List.cons.injEq, true_and]
    exact treeDatasList_mapNodesList f cs

theorem treeDatasList_mapNodesList (f : NodeData → NodeData) :
    ∀ cs, treeDatasList (mapNodesList f cs) = (treeDatasList cs).map f
  | .nil => rfl
  | .cons c cs => by
    simp only [mapNodesList, treeDatasList_cons, List.map_append]
    rw [treeDatas_mapNodes f c, treeDatasList_mapNodesList f cs]

end

mutual

theorem mapNodes_mapNodes (f g : NodeData → NodeData) :
    ∀ t, mapNodes g (mapNodes f t) = mapNodes (fun d => g (f d)) t
  | .node d cs => by
    simp only [mapNodes, SceneNode.node.injEq, true_and]
    exact mapNodesList_mapNodesList f g cs

theorem mapNodesList_mapNodesList (f g : NodeData → NodeData) :
    ∀ cs, mapNodesList g (mapNodesList f cs) = mapNodesList (fun d => g (f d)) cs
  | .nil => rfl
  | .cons c cs => by
    simp only [mapNodesList, SceneNodeList.cons.injEq]
    exact ⟨mapNodes_mapNodes f g c, mapNodesList_mapNodesList f g cs⟩

end

mutual

theorem mapNodes_eq_self (f : NodeData → NodeData) :
    ∀ t, (∀ d ∈ treeDatas t, f d = d) → mapNodes f t = t
  | .node d cs, h => by
    simp only [mapNodes, SceneNode.node.injEq]
    refine ⟨h d (self_mem_treeDatas d cs), ?_⟩
    exact mapNodesList_eq_self f cs (fun d2 hd2 => h d2 (by
      rw [treeDatas_node]
      exact List.mem_cons_of_mem _ hd2))

theorem mapNodesList_eq_self (f : NodeData → NodeData) :
    ∀ cs, (∀ d ∈ treeDatasList cs, f d = d) → mapNodesList f cs = cs
  | .nil, _ => rfl
  | .cons c cs, h => by
    simp only [mapNodesList, SceneNodeList.cons.injEq]
    refine ⟨?_, ?_⟩
    · exact mapNodes_eq_self f c (fun d hd => h d (by
        rw [treeDatasList_cons]
        exact List.mem_append.2 (Or.inl hd)))
    · exact mapNodesList_eq_self f cs (fun d hd => h d (by
        rw [treeDatasList_cons]
        exact List.mem_append.2 (Or.inr hd)))

end

mutual

theorem mapCollect_fst (f : NodeData → NodeData × Option MaterialInfo) :
    ∀ t, (mapCollect f t).1 = mapNodes (fun d => (f d).1) t
  | .node d cs => by
    simp only [mapCollect, mapNodes, SceneNode.node.injEq, true_and]
    exact mapCollectList_fst f cs

theorem mapCollectList_fst (f : NodeData → NodeData × Option MaterialInfo) :
    ∀ cs, (mapCollectList f cs).1 = mapNodesList (fun d => (f d).1) cs
  | .nil => rfl
  | .cons c cs => by
    simp only [mapCollectList, mapNodesList, SceneNodeList.cons.injEq]
    exact ⟨mapCollect_fst f c, mapCollectList_fst f cs⟩

end

mutual

theorem mapCollect_snd (f : NodeData → NodeData × Option MaterialInfo) :
    ∀ t, (mapCollect f t).2 = (treeDatas t).filterMap (fun d => (f d).2)
  | .node d cs => by
    simp only [mapCollect, treeDatas, List.filterMap_cons]
    rw [mapCollectList_snd f cs]
    cases hfd : (f d).2 <;> simp [hfd]

theorem mapCollectList_snd (f : NodeData → NodeData × Option MaterialInfo) :
    ∀ cs, (mapCollectList f cs).2 = (treeDatasList cs).filterMap (fun d => (f d).2)
  | .nil => rfl
  | .cons c cs => by
    simp only [mapCollectList, treeDatasList_cons, List.filterMap_append]
    rw [mapCollect_snd f c, mapCollectList_snd f cs]

end

/-- Modelled from the spec: the NodeFilter predicate of section 4.1, whose
implementation is not shipped in the repository (only the filter parameters
of the `ObjectUtils.d.ts` method signatures are).  Decides whether a node
with the given (possibly absent) id participates in an operation scoped by
the optional includeObjectIds / excludeObjectIds lists: a given non-empty
include list requires membership, a given exclude list forbids membership,
an absent list imposes no constraint, both constraints conjoin, and an
absent id is excluded exactly when an include list is present. -/
def included (id : Option Int) (includeIds : Option (List Int))
    (excludeIds : Option (List Int)) : Bool :=
  match id with
  | none => includeIds.isNone
  | some i =>
    (match includeIds with
     | none => true
     | some l => l.isEmpty || l.contains i)
    && (match excludeIds with
        | none => true
        | some l => !l.contains i)

/-- Is a children list empty. -/
def SceneNodeList.isNil : SceneNodeList → Bool
  | .nil => true
  | .cons _ _ => false

namespace ObjectUtils

/-- Modelled from the spec: the per-node update of `setObjectOpacity`
(section 4.3), whose implementation is not shipped in the repository.
For a mesh-bearing node passing the filter it snapshots the current
opacity / transparent / side into a `MaterialInfo` and then sets
`transparent := true` and the requested opacity. -/
def setObjectOpacityStep (opacity : Rat)
    (includeObjectIds excludeObjectIds : Option (List Int))
    (d : NodeData) : NodeData × Option MaterialInfo :=
  match d.material with
  | some m =>
    if included (some d.id) includeObjectIds excludeObjectIds then
      ({ d with material := some { m with opacity := opacity, transparent := true } },
       some { id := d.id, material := some m, opacity := m.opacity,
              transparent := m.transparent, side := m.side })
    else (d, none)
  | none => (d, none)

/-- Modelled from the spec: `setObjectOpacity` (ObjectUtils.d.ts lines
28-37; spec section 4.3).  Mutates every filter-included mesh-bearing node
of the subtree and returns the `MaterialInfo` snapshots that invert the
call. -/
def setObjectOpacity (object : SceneNode) (opacity : Rat)
    (includeObjectIds excludeObjectIds : Option (List Int)) :
    SceneNode × List MaterialInfo :=
  mapCollect (setObjectOpacityStep opacity includeObjectIds excludeObjectIds) object

/-- Modelled from the spec: the per-node update of `revertObjectOpacity`.
For a node whose id matches a snapshot in the list and which is still
filter-included, restores opacity / transparent / side from the snapshot;
entries matching no node are skipped. -/
def revertObjectOpacityStep (materialInfoList : List MaterialInfo)
    (includeObjectIds excludeObjectIds : Option (List Int))
    (d : NodeData) : NodeData :=
  match materialInfoList.find? (fun i => i.id == d.id), d.material with
  | some i, some m =>
    if included (some d.id) includeObjectIds excludeObjectIds then
      let m2 := { m with opacity := i.opacity, transparent := i.transparent, side := i.side }
      { d with material := some m2 }
    else d
  | _, _ => d

/-- Modelled from the spec: `revertObjectOpacity` (ObjectUtils.d.ts
lines 33-37; spec section 4.3). -/
def revertObjectOpacity (object : SceneNode)
    (materialInfoList : List MaterialInfo)
    (includeObjectIds excludeObjectIds : Option (List Int)) : SceneNode :=
  mapNodes
    (revertObjectOpacityStep materialInfoList includeObjectIds excludeObjectIds)
    object

/-- Modelled from the spec: the per-node update of `applyMaterialToObject`
(section 4.4): replaces the material on every filtered material-bearing
node, stashing the prior material under the `originalMaterial` annotation
only if none is present (first-write-wins). -/
def applyMaterialToObjectStep (material : Material)
    (includeObjectIds excludeObjectIds : Option (List Int))
    (d : NodeData) : NodeData :=
  match d.material with
  | some cur =>
    if included (some d.id) includeObjectIds excludeObjectIds then
      let om2 := (match d.userData.originalMaterial with
        | none => some cur
        | some om => some om)
      { d with material := some material, userData.originalMaterial := om2 }
    else d
  | none => d

/-- Modelled from the spec: `applyMaterialToObject` (spec section 4.4). -/
def applyMaterialToObject (object : SceneNode) (material : Material)
    (includeObjectIds excludeObjectIds : Option (List Int)) : SceneNode :=
  mapNodes (applyMaterialToObjectStep material includeObjectIds excludeObjectIds)
    object

/-- Modelled from the spec: the per-node update of
`revertAppliedMaterialToObject`: restores the material from the
`originalMaterial` annotation and clears it; a node without the
annotation is left as-is. -/
def revertAppliedMaterialToObjectStep
    (includeObjectIds excludeObjectIds : Option (List Int))
    (d : NodeData) : NodeData :=
  match d.userData.originalMaterial with
  | some om =>
    if included (some d.id) includeObjectIds excludeObjectIds then
      { d with material := some om, userData.originalMaterial := none }
    else d
  | none => d

/-- Modelled from the spec: `revertAppliedMaterialToObject` (spec
section 4.4). -/
def revertAppliedMaterialToObject (object : SceneNode)
    (includeObjectIds excludeObjectIds : Option (List Int)) : SceneNode :=
  mapNodes (revertAppliedMaterialToObjectStep includeObjectIds excludeObjectIds)
    object

/-- Modelled from the spec: the per-node update of
`setDoubleSidedMaterialToObject` (section 4.4): stashes the material's
current side under the `originalSide` annotation (first-write-wins) and
forces double-sided rendering.  Per its `ObjectUtils.d.ts` declaration the
operation takes no filter parameters. -/
def setDoubleSidedMaterialToObjectStep (d : NodeData) : NodeData :=
  match d.material with
  | some m =>
    let s2 := (match d.userData.originalSide with
      | none => some m.side
      | some s => some s)
    { d with material := some { m with side := Side.DoubleSide }, userData.originalSide := s2 }
  | none => d

/-- Modelled from the spec: `setDoubleSidedMaterialToObject`
(ObjectUtils.d.ts lines 67-71). -/
def setDoubleSidedMaterialToObject (object : SceneNode) : SceneNode :=
  mapNodes setDoubleSidedMaterialToObjectStep object

/-- Modelled from the spec: the per-node update of
`revertDoubleSidedMaterialToObject`: restores the side from the
`originalSide` annotation and clears it. -/
def revertDoubleSidedMaterialToObjectStep (d : NodeData) : NodeData :=
  match d.userData.originalSide, d.material with
  | some s, some m =>
    { d with material := some { m with side := s }, userData.originalSide := none }
  | _, _ => d

/-- Modelled from the spec: `revertDoubleSidedMaterialToObject`
(ObjectUtils.d.ts lines 72-75). -/
def revertDoubleSidedMaterialToObject (object : SceneNode) : SceneNode :=
  mapNodes revertDoubleSidedMaterialToObjectStep object

/-- Modelled from the spec: the wireframe-rendering material that
`setWireframeMode` swaps in. -/
def WIREFRAME_MATERIAL : Material :=
  { opacity := 1, transparent := false, side := Side.FrontSide, wireframe := true }

/-- Modelled from the spec: the per-node update of `setWireframeMode`
(section 4.4): stashes the current material under the
`materialForWireframe` annotation (first-write-wins) and swaps in a
wireframe-rendering material.  Per its `ObjectUtils.d.ts` declaration the
operation takes no filter parameters. -/
def setWireframeModeStep (d : NodeData) : NodeData :=
  match d.material with
  | some m =>
    let s2 := (match d.userData.materialForWireframe with
      | none => some m
      | some s => some s)
    { d with material := some WIREFRAME_MATERIAL, userData.materialForWireframe := s2 }
  | none => d

/-- Modelled from the spec: `setWireframeMode` (ObjectUtils.d.ts lines
76-84). -/
def setWireframeMode (object : SceneNode) : SceneNode :=
  mapNodes setWireframeModeStep object

/-- Modelled from the spec: the per-node update of `revertWireframeMode`:
restores the material stashed under `materialForWireframe` and clears the
key; a node without the annotation is left as-is. -/
def revertWireframeModeStep (d : NodeData) : NodeData :=
  match d.userData.materialForWireframe with
  | some m =>
    { d with material := some m, userData.materialForWireframe := none }
  | none => d

/-- Modelled from the spec: `revertWireframeMode` (ObjectUtils.d.ts lines
89-92). -/
def revertWireframeMode (object : SceneNode) : SceneNode :=
  mapNodes revertWireframeModeStep object

/-- Modelled from the spec: recognises a floor token starting at the
current scan position (section 4.2 floor matching): a non-empty maximal
digit run immediately followed by the letter F, delimiter-bounded on both
sides (the previous character, when any, and the character after the F,
when any, are not alphanumeric), as in the name pattern 5F(...). -/
def floorTokenAt (prev : Option Char) (l : List Char) : Option String :=
  if (match prev with
      | none => true
      | some p => !p.isAlphanum) then
    match l.takeWhile Char.isDigit, l.dropWhile Char.isDigit with
    | [], _ => none
    | ds, 'F' :: rest =>
      match rest with
      | [] => some (String.mk (ds ++ ['F']))
      | c :: _ => if c.isAlphanum then none else some (String.mk (ds ++ ['F']))
    | _, _ => none
  else none

/-- Modelled from the spec: scans the characters of a name left to right,
collecting every floor token found (spec section 3: extraction is
best-effort and may yield zero or multiple tokens per name). -/
def getFloorsFromStringAux : Option Char → List Char → List String
  | _, [] => []
  | prev, c :: rest =>
    match floorTokenAt prev (c :: rest) with
    | some t => t :: getFloorsFromStringAux (some c) rest
    | none => getFloorsFromStringAux (some c) rest

/-- Modelled from the spec: `getFloorsFromString` (ObjectUtils.d.ts lines
108-112), whose implementation is not shipped in the repository: the floor
tokens contained in a name, e.g. 5F from "5F(xxx)". -/
def getFloorsFromString (str : String) : List String :=
  getFloorsFromStringAux none str.toList

/-- Modelled from the spec: `matchFloor` (ObjectUtils.d.ts lines 113-118):
the name matches a floor token only if the token appears as a whole
bracket-delimited or delimiter-bounded segment, not as an arbitrary
substring. -/
def matchFloor (str : String) (floor : String) : Bool :=
  (getFloorsFromString str).contains floor

/-- Modelled from the spec: `matchFloors` (ObjectUtils.d.ts lines
119-124): the name matches one of the given floor tokens. -/
def matchFloors (str : String) (floors : List String) : Bool :=
  floors.any (fun f => matchFloor str f)

/-- Modelled from the spec: the floor token denoted by a numeric floor
argument (the floors parameters of `traverseObjectByFloors` and
`setVisibleForFloors` are declared as number arrays while floor tokens
are strings such as 5F). -/
def floorName (floor : Nat) : String :=
  toString floor ++ "F"

end ObjectUtils

/-- Whether some node of the subtree carries the given id. -/
def containsId (id : Int) (t : SceneNode) : Bool :=
  (treeDatas t).any (fun d => d.id == id)

mutual

/-- Depth-first search for the first node of the subtree with the given
id (the scene-wide id lookup behind the ById variants, `getObjectById` in
ObjectUtils.d.ts line 147). -/
def getObjectByIdImpl : SceneNode → Int → Option SceneNode
  | .node d cs, i =>
    if d.id == i then some (.node d cs) else getObjectByIdList cs i

/-- `getObjectByIdImpl` over a list of sibling subtrees, left to right. -/
def getObjectByIdList : SceneNodeList → Int → Option SceneNode
  | .nil, _ => none
  | .cons c cs, i =>
    match getObjectByIdImpl c i with
    | some r => some r
    | none => getObjectByIdList cs i

end

mutual

/-- Replaces the depth-first-first node carrying the given id by the
image of the given subtree transformation; identity when no node carries
the id.  This is the value-level counterpart of resolving an id to a node
and mutating that node in place. -/
def updateById (id : Int) (f : SceneNode → SceneNode) : SceneNode → SceneNode
  | .node d cs =>
    if d.id == id then f (.node d cs) else .node d (updateByIdList id f cs)

/-- `updateById` over a list of sibling subtrees: the first subtree
containing the id is updated, the others are untouched. -/
def updateByIdList (id : Int) (f : SceneNode → SceneNode) :
    SceneNodeList → SceneNodeList
  | .nil => .nil
  | .cons c cs =>
    if containsId id c then .cons (updateById id f c) cs
    else .cons c (updateByIdList id f cs)

end

namespace ObjectUtils

/-- Modelled from the spec: `getObjectById` (ObjectUtils.d.ts line 147):
scene-wide id lookup. -/
def getObjectById (scene : SceneNode) (id : Int) : Option SceneNode :=
  getObjectByIdImpl scene id

/-- Modelled from the spec: `setObjectOpacityById` (ObjectUtils.d.ts
lines 38-41): resolves the id and delegates to `setObjectOpacity`,
returning the scene unchanged with an empty snapshot list when the id
does not resolve. -/
def setObjectOpacityById (scene : SceneNode) (id : Int) (opacity : Rat)
    (includeObjectIds excludeObjectIds : Option (List Int)) :
    SceneNode × List MaterialInfo :=
  match getObjectById scene id with
  | none => (scene, [])
  | some obj =>
    (updateById id
      (fun sub => (setObjectOpacity sub opacity includeObjectIds excludeObjectIds).1)
      scene,
     (setObjectOpacity obj opacity includeObjectIds excludeObjectIds).2)

/-- Modelled from the spec: `revertObjectOpacityById` (ObjectUtils.d.ts
lines 42-45). -/
def revertObjectOpacityById (scene : SceneNode) (id : Int)
    (materialInfoList : List MaterialInfo)
    (includeObjectIds excludeObjectIds : Option (List Int)) : SceneNode :=
  updateById id
    (fun sub => revertObjectOpacity sub materialInfoList includeObjectIds excludeObjectIds)
    scene

/-- Modelled from the spec: `applyMaterialToObjectById` (ObjectUtils.d.ts
lines 55-58). -/
def applyMaterialToObjectById (scene : SceneNode) (id : Int)
    (material : Material)
    (includeObjectIds excludeObjectIds : Option (List Int)) : SceneNode :=
  updateById id
    (fun sub => applyMaterialToObject sub material includeObjectIds excludeObjectIds)
    scene

/-- Modelled from the spec: `revertAppliedMaterialToObjectById`
(ObjectUtils.d.ts lines 59-62). -/
def revertAppliedMaterialToObjectById (scene : SceneNode) (id : Int)
    (includeObjectIds excludeObjectIds : Option (List Int)) : SceneNode :=
  updateById id
    (fun sub => revertAppliedMaterialToObject sub includeObjectIds excludeObjectIds)
    scene

/-- Modelled from the spec: `setWireframeModeById` (ObjectUtils.d.ts
lines 85-88). -/
def setWireframeModeById (scene : SceneNode) (id : Int) : SceneNode :=
  updateById id setWireframeMode scene

/-- Modelled from the spec: `revertWireframeModeById` (ObjectUtils.d.ts
lines 93-96). -/
def revertWireframeModeById (scene : SceneNode) (id : Int) : SceneNode :=
  updateById id revertWireframeMode scene

end ObjectUtils

mutual

/-- Modelled from the spec: the depth-first visit behind
`traverseObjectByFloors` (section 4.6): nodes whose name matches one of
the floor tokens are delivered to the match callback, the others to the
unmatch callback; here the two callback streams are collected as two
lists, each in visit order. -/
def traverseByFloorsCollect (tokens : List String) :
    SceneNode → List NodeData × List NodeData
  | .node d cs =>
    let r := traverseByFloorsCollectList tokens cs
    if ObjectUtils.matchFloors d.name tokens then (d :: r.1, r.2)
    else (r.1, d :: r.2)

/-- `traverseByFloorsCollect` over a list of sibling subtrees. -/
def traverseByFloorsCollectList (tokens : List String) :
    SceneNodeList → List NodeData × List NodeData
  | .nil => ([], [])
  | .cons c cs =>
    let r := traverseByFloorsCollect tokens c
    let rs := traverseByFloorsCollectList tokens cs
    (r.1 ++ rs.1, r.2 ++ rs.2)

end

namespace ObjectUtils

/-- Modelled from the spec: `traverseObjectByFloors` (ObjectUtils.d.ts
lines 134-138, declared return type never[] | undefined, here
`Option (List Empty)`): resolves the object id, visits its subtree and
delivers matched and unmatched nodes through the two callbacks (collected
here as the second and third components); the return value itself carries
no nodes. -/
def traverseObjectByFloors (scene : SceneNode) (objectId : Int)
    (floors : List Nat) :
    Option (List Empty) × List NodeData × List NodeData :=
  match getObjectById scene objectId with
  | none => (none, [], [])
  | some obj =>
    let r := traverseByFloorsCollect (floors.map floorName) obj
    (some [], r.1, r.2)

/-- Modelled from the spec: the per-node update of `setVisibleForFloors`
(section 4.6): stash the current visibility under the
`visibleForFloorsOriginal` annotation if absent, then set
`visible := true` on matches and `visible := false` on non-matches when
`makeUnmatchedInvisible` is set, leaving other non-matches untouched. -/
def setVisibleForFloorsStep (tokens : List String)
    (makeUnmatchedInvisible : Bool) (d : NodeData) : NodeData :=
  let d1 := (match d.userData.visibleForFloorsOriginal with
    | none => { d with userData.visibleForFloorsOriginal := some d.visible }
    | some _ => d)
  if matchFloors d.name tokens then { d1 with visible := true }
  else if makeUnmatchedInvisible then { d1 with visible := false }
  else d1

/-- Modelled from the spec: `setVisibleForFloors` (ObjectUtils.d.ts lines
139-144): resolves the object id and applies the per-node visibility
update to every node of that subtree. -/
def setVisibleForFloors (scene : SceneNode) (objectId : Int)
    (floors : List Nat) (makeUnmatchedInvisible : Bool) : SceneNode :=
  updateById objectId
    (mapNodes (setVisibleForFloorsStep (floors.map floorName) makeUnmatchedInvisible))
    scene

/-- Modelled from the spec: the per-node update of
`revertVisibleForFloors`: restores the visibility stashed under the
`visibleForFloorsOriginal` annotation and clears it; a node without the
annotation is left as-is. -/
def revertVisibleForFloorsStep (d : NodeData) : NodeData :=
  match d.userData.visibleForFloorsOriginal with
  | some v => { d with visible := v, userData.visibleForFloorsOriginal := none }
  | none => d

/-- Modelled from the spec: `revertVisibleForFloors` (ObjectUtils.d.ts
line 145). -/
def revertVisibleForFloors (object : SceneNode) : SceneNode :=
  mapNodes revertVisibleForFloorsStep object

/-- Modelled from the spec: `revertVisibleForFloorsById`
(ObjectUtils.d.ts line 146). -/
def revertVisibleForFloorsById (scene : SceneNode) (id : Int) : SceneNode :=
  updateById id revertVisibleForFloors scene

/-- Modelled from the spec: the per-node update of `resetObjectStyle`
(ObjectUtils.d.ts lines 18-22, "clears any styles, including
transparency, wireframe mode, filter by floor, etc."): restores and
clears every undo annotation and resets the material to fully opaque. -/
def resetObjectStyleStep (d : NodeData) : NodeData :=
  let d1 := revertWireframeModeStep d
  let d2 := revertAppliedMaterialToObjectStep none none d1
  let d3 := revertDoubleSidedMaterialToObjectStep d2
  let d4 := revertVisibleForFloorsStep d3
  match d4.material with
  | some m => { d4 with material := some { m with opacity := 1, transparent := false } }
  | none => d4

/-- Modelled from the spec: `resetObjectStyle` (ObjectUtils.d.ts lines
18-22). -/
def resetObjectStyle (object : SceneNode) : SceneNode :=
  mapNodes resetObjectStyleStep object

/-- Modelled from the spec: `resetObjectStyleById` (ObjectUtils.d.ts
lines 23-26). -/
def resetObjectStyleById (scene : SceneNode) (id : Int) : SceneNode :=
  updateById id resetObjectStyle scene

/-- The shared default outline material (`OUTLINE_MATERIAL` in
ObjectUtils.d.ts lines 148-151). -/
def OUTLINE_MATERIAL : Material :=
  { opacity := 1, transparent := false, side := Side.FrontSide, wireframe := false }

end ObjectUtils

/-- Whether the node itself is an outline decoration (spec section 3:
a line-segment child tagged as an outline). -/
def isOutlineTop : SceneNode → Bool
  | .node d _ => d.isOutline

/-- Whether a children list contains an outline decoration. -/
def anyOutlineChild : SceneNodeList → Bool
  | .nil => false
  | .cons c cs => isOutlineTop c || anyOutlineChild cs

/-- Modelled from the spec: the outline decoration child added under an
outlined mesh: a line node tagged as an outline, rendered with the shared
default outline material. -/
def outlineChild : SceneNode :=
  .node { id := 0, name := "outline", visible := true,
          material := some ObjectUtils.OUTLINE_MATERIAL, userData := {},
          kind := NodeKind.Line, isOutline := true } .nil

/-- Modelled from the spec: whether `createOutlines` derives an outline
for this node: the node is a mesh, restricted to visible nodes when
`onlyVisible` is set and to childless mesh leaves when `meshOnly` is
set. -/
def eligibleForOutline (options : Option OutlineOptions) (d : NodeData)
    (cs : SceneNodeList) : Bool :=
  d.kind == NodeKind.Mesh
  && (match options with
      | none => true
      | some o => (!o.onlyVisible || d.visible) && (!o.meshOnly || cs.isNil))

mutual

/-- Modelled from the spec: `createOutlines` (ObjectUtils.d.ts lines
152-158; spec section 4.5), with the asynchronous progress reporting
elided: traverses the subtree and, under every eligible mesh that does
not already carry an outline decoration, parents a new outline child,
returning the updated subtree together with the created decorations. -/
def createOutlines (object : SceneNode) (options : Option OutlineOptions) :
    SceneNode × List SceneNode :=
  match object with
  | .node d cs =>
    let r := createOutlinesList cs options
    if eligibleForOutline options d cs && !anyOutlineChild cs then
      (.node d (r.1.append (.cons outlineChild .nil)), r.2 ++ [outlineChild])
    else (.node d r.1, r.2)

/-- `createOutlines` over a list of sibling subtrees. -/
def createOutlinesList (cs : SceneNodeList) (options : Option OutlineOptions) :
    SceneNodeList × List SceneNode :=
  match cs with
  | .nil => (.nil, [])
  | .cons c cs =>
    let r := createOutlines c options
    let rs := createOutlinesList cs options
    (.cons r.1 rs.1, r.2 ++ rs.2)

end

mutual

/-- Modelled from the spec: `removeOutlines` (ObjectUtils.d.ts lines
159-162): recursively removes every outline-decoration child of the
subtree. -/
def removeOutlines : SceneNode → SceneNode
  | .node d cs => .node d (removeOutlinesList cs)

/-- `removeOutlines` over a list of sibling subtrees: outline decorations
are dropped, other nodes are cleaned recursively. -/
def removeOutlinesList : SceneNodeList → SceneNodeList
  | .nil => .nil
  | .cons c cs =>
    if isOutlineTop c then removeOutlinesList cs
    else .cons (removeOutlines c) (removeOutlinesList cs)

end

mutual

/-- Modelled from the spec: `hasOutline` (ObjectUtils.d.ts lines 163-167):
whether the node carries an outline-decoration child, or, when
`checkChildren` is set, whether any descendant does. -/
def hasOutline : SceneNode → Bool → Bool
  | .node _ cs, checkChildren =>
    anyOutlineChild cs || (checkChildren && hasOutlineList cs)

/-- `hasOutline` with `checkChildren` over a list of sibling subtrees. -/
def hasOutlineList : SceneNodeList → Bool
  | .nil => false
  | .cons c cs => hasOutline c true || hasOutlineList cs

end

/-- A fully opaque front-sided material used by the concrete scenes. -/
def baseMaterial : Material :=
  { opacity := 1, transparent := false, side := Side.FrontSide, wireframe := false }

/-- The base material after an opacity mutation to zero. -/
def fadedMaterial : Material :=
  { opacity := 0, transparent := true, side := Side.FrontSide, wireframe := false }

/-- A mesh leaf with the given id and the base material. -/
def meshLeaf (i : Int) : SceneNode :=
  .node { id := i, material := some baseMaterial, kind := NodeKind.Mesh } .nil

/-- A mesh leaf with the given id and the faded material. -/
def fadedLeaf (i : Int) : SceneNode :=
  .node { id := i, material := some fadedMaterial, kind := NodeKind.Mesh } .nil

/-- Concrete scene with mesh nodes of ids 1, 2, 3 (the filter scenario of
spec section 8). -/
def sampleScene : SceneNode :=
  .node { id := 1, material := some baseMaterial, kind := NodeKind.Mesh }
    (.ofList [meshLeaf 2, meshLeaf 3])

/-- C3: the inclusion predicate gating every per-node mutation requires
membership in a given non-empty include list, forbids membership in a
given exclude list, imposes no constraint for an absent list, conjoins
both lists, excludes an absent id exactly when an include list is
present; over the scene with ids 1, 2, 3, includeObjectIds [1, 2]
affects exactly nodes 1 and 2, adding excludeObjectIds [2] narrows the
effect to node 1, and empty filters affect all nodes. -/
theorem nodeFilter_semantics :
    (∀ (i : Int) (inc exc : List Int),
      (included (some i) (some inc) (some exc) = true)
        ↔ ((inc = [] ∨ i ∈ inc) ∧ i ∉ exc))
  ∧ (∀ (i : Int) (exc : List Int),
      (included (some i) none (some exc) = true) ↔ i ∉ exc)
  ∧ (∀ (i : Int) (inc : List Int),
      (included (some i) (some inc) none = true) ↔ (inc = [] ∨ i ∈ inc))
  ∧ (∀ i : Int, included (some i) none none = true)
  ∧ (∀ (inc : List Int) (exc : Option (List Int)),
      included none (some inc) exc = false)
  ∧ (∀ exc : Option (List Int), included none none exc = true)
  ∧ (ObjectUtils.setObjectOpacity sampleScene 0 (some [1, 2]) none).1
      = .node { id := 1, material := some fadedMaterial, kind := NodeKind.Mesh }
          (.ofList [fadedLeaf 2, meshLeaf 3])
  ∧ (ObjectUtils.setObjectOpacity sampleScene 0 (some [1, 2]) (some [2])).1
      = .node { id := 1, material := some fadedMaterial, kind := NodeKind.Mesh }
          (.ofList [meshLeaf 2, meshLeaf 3])
  ∧ (ObjectUtils.setObjectOpacity sampleScene 0 none none).1
      = .node { id := 1, material := some fadedMaterial, kind := NodeKind.Mesh }
          (.ofList [fadedLeaf 2, fadedLeaf 3])
  ∧ (ObjectUtils.setObjectOpacity sampleScene 0 (some []) (some [])).1
      = .node { id := 1, material := some fadedMaterial, kind := NodeKind.Mesh }
          (.ofList [fadedLeaf 2, fadedLeaf 3]) := by
  refine ⟨?_, ?_, ?_, ?_, ?_, ?_, by decide, by decide, by decide, by decide⟩
  · intro i inc exc
    simp [included, List.isEmpty_iff, List.elem_iff, List.contains,
      Bool.and_eq_true, Bool.or_eq_true]
  · intro i exc
    simp [included, List.elem_iff, List.contains]
  · intro i inc
    simp [included, List.isEmpty_iff, List.elem_iff, List.contains,
      Bool.or_eq_true]
  · intro i
    rfl
  · intro inc exc
    rfl
  · intro exc
    rfl

/-- C5: floor matching is segment-precise: the name 21F(Lobby) does not
match the floor token 1F, and the name 5F(A) matches the floor token 5F
and no other string. -/
theorem matchFloor_precision :
    ObjectUtils.matchFloor "21F(Lobby)" "1F" = false
  ∧ ObjectUtils.matchFloor "5F(A)" "5F" = true
  ∧ (∀ tkn : String, ObjectUtils.matchFloor "5F(A)" tkn = true ↔ tkn = "5F") := by
  refine ⟨by decide, by decide, ?_⟩
  intro tkn
  have h : ObjectUtils.getFloorsFromString "5F(A)" = ["5F"] := by decide
  unfold ObjectUtils.matchFloor
  rw [h]
  simp [List.contains, List.elem_iff]

mutual

theorem traverseByFloorsCollect_eq (tokens : List String) :
    ∀ t, traverseByFloorsCollect tokens t =
      ((treeDatas t).filter (fun d => ObjectUtils.matchFloors d.name tokens),
       (treeDatas t).filter (fun d => !ObjectUtils.matchFloors d.name tokens))
  | .node d cs => by
    simp only [traverseByFloorsCollect, treeDatas_node, List.filter_cons]
    rw [traverseByFloorsCollectList_eq tokens cs]
    cases hm : ObjectUtils.matchFloors d.name tokens <;> simp [hm]

theorem traverseByFloorsCollectList_eq (tokens : List String) :
    ∀ cs, traverseByFloorsCollectList tokens cs =
      ((treeDatasList cs).filter (fun d => ObjectUtils.matchFloors d.name tokens),
       (treeDatasList cs).filter (fun d => !ObjectUtils.matchFloors d.name tokens))
  | .nil => rfl
  | .cons c cs => by
    simp only [traverseByFloorsCollectList, treeDatasList_cons, List.filter_append]
    rw [traverseByFloorsCollect_eq tokens c, traverseByFloorsCollectList_eq tokens cs]

end

/-- Concrete floor scene: a root of id 7 whose children sit on floors 1F
(initially invisible) and 2F (initially visible). -/
def floorScene : SceneNode :=
  .node { id := 7, name := "building" }
    (.ofList [.node { id := 8, name := "1F(a)", visible := false } .nil,
              .node { id := 9, name := "2F(b)" } .nil])

/-- C10: `traverseObjectByFloors` returns either undefined or an empty
sequence (declared return type never[] | undefined); matched and
unmatched nodes are delivered exclusively through the match and unmatch
callbacks, which together partition the visited subtree by the floor
predicate. -/
theorem traverseObjectByFloors_spec (scene : SceneNode) (objectId : Int)
    (floors : List Nat) :
    ((ObjectUtils.traverseObjectByFloors scene objectId floors).1 = none
      ∨ (ObjectUtils.traverseObjectByFloors scene objectId floors).1 = some [])
  ∧ (∀ obj, ObjectUtils.getObjectById scene objectId = some obj →
      (ObjectUtils.traverseObjectByFloors scene objectId floors).2.1
        = (treeDatas obj).filter
            (fun d => ObjectUtils.matchFloors d.name (floors.map ObjectUtils.floorName))
      ∧ (ObjectUtils.traverseObjectByFloors scene objectId floors).2.2
        = (treeDatas obj).filter
            (fun d => !ObjectUtils.matchFloors d.name (floors.map ObjectUtils.floorName)))
  ∧ (ObjectUtils.getObjectById scene objectId = none →
      (ObjectUtils.traverseObjectByFloors scene objectId floors).2 = ([], [])) := by
  unfold ObjectUtils.traverseObjectByFloors
  cases hg : ObjectUtils.getObjectById scene objectId with
  | none =>
    refine ⟨Or.inl rfl, ?_, fun _ => rfl⟩
    intro obj hobj
    exact absurd hobj (by simp)
  | some obj0 =>
    refine ⟨Or.inr rfl, ?_, ?_⟩
    · intro obj hobj
      have hoo : obj0 = obj := by
        have := hobj
        simp only [Option.some.injEq] at this
        exact this
      subst hoo
      dsimp only
      rw [traverseByFloorsCollect_eq]
      exact ⟨rfl, rfl⟩
    · intro hnone
      exact absurd hnone (by simp)

/-- Witness for C10 at the concrete floor scene. -/
theorem traverseObjectByFloors_spec_witness :
    (ObjectUtils.traverseObjectByFloors floorScene 7 [1]).2.1
      = (treeDatas floorScene).filter
          (fun d => ObjectUtils.matchFloors d.name ([1].map ObjectUtils.floorName))
  ∧ (ObjectUtils.traverseObjectByFloors floorScene 7 [1]).2.2
      = (treeDatas floorScene).filter
          (fun d => !ObjectUtils.matchFloors d.name ([1].map ObjectUtils.floorName)) :=
  (traverseObjectByFloors_spec floorScene 7 [1]).2.1 floorScene (by decide)

/-- C8: for every revertible mutation kind — opacity, applied material,
double-sided, wireframe, floor visibility — invoking the corresponding
revert operation when no matching undo annotation (or, for opacity, no
snapshot matching any node) exists is a no-op: it leaves the object's
material, visibility, and annotations unchanged, and being a total
function it throws no error. -/
theorem revert_without_annotation_noop (t : SceneNode)
    (includeObjectIds excludeObjectIds : Option (List Int))
    (materialInfoList : List MaterialInfo)
    (h1 : ∀ d ∈ treeDatas t, d.userData.materialForWireframe = none)
    (h2 : ∀ d ∈ treeDatas t, d.userData.originalMaterial = none)
    (h3 : ∀ d ∈ treeDatas t, d.userData.originalSide = none)
    (h4 : ∀ d ∈ treeDatas t, d.userData.visibleForFloorsOriginal = none)
    (h5 : ∀ d ∈ treeDatas t, ∀ i ∈ materialInfoList, i.id ≠ d.id) :
    ObjectUtils.revertWireframeMode t = t
  ∧ ObjectUtils.revertAppliedMaterialToObject t includeObjectIds excludeObjectIds = t
  ∧ ObjectUtils.revertDoubleSidedMaterialToObject t = t
  ∧ ObjectUtils.revertVisibleForFloors t = t
  ∧ ObjectUtils.revertObjectOpacity t materialInfoList includeObjectIds
      excludeObjectIds = t := by
  refine ⟨?_, ?_, ?_, ?_, ?_⟩
  · exact mapNodes_eq_self _ t (fun d hd => by
      unfold ObjectUtils.revertWireframeModeStep
      rw [h1 d hd])
  · exact mapNodes_eq_self _ t (fun d hd => by
      unfold ObjectUtils.revertAppliedMaterialToObjectStep
      rw [h2 d hd])
  · exact mapNodes_eq_self _ t (fun d hd => by
      unfold ObjectUtils.revertDoubleSidedMaterialToObjectStep
      rw [h3 d hd])
  · exact mapNodes_eq_self _ t (fun d hd => by
      unfold ObjectUtils.revertVisibleForFloorsStep
      rw [h4 d hd])
  · exact mapNodes_eq_self _ t (fun d hd => by
      have hf : materialInfoList.find? (fun i => i.id == d.id) = none :=
        List.find?_eq_none.2 (fun i hi => by simp [h5 d hd i hi])
      unfold ObjectUtils.revertObjectOpacityStep
      rw [hf])

/-- Witness for C8: the reverts are no-ops on the annotation-free sample
scene, also for a snapshot list matching none of its nodes. -/
theorem revert_without_annotation_noop_witness :
    ObjectUtils.revertWireframeMode sampleScene = sampleScene
  ∧ ObjectUtils.revertAppliedMaterialToObject sampleScene none none = sampleScene
  ∧ ObjectUtils.revertDoubleSidedMaterialToObject sampleScene = sampleScene
  ∧ ObjectUtils.revertVisibleForFloors sampleScene = sampleScene
  ∧ ObjectUtils.revertObjectOpacity sampleScene
      [{ id := 99, opacity := 1, transparent := false, side := Side.FrontSide }]
      none none = sampleScene :=
  revert_without_annotation_noop sampleScene none none
    [{ id := 99, opacity := 1, transparent := false, side := Side.FrontSide }]
    (by decide) (by decide) (by decide) (by decide) (by decide)

theorem containsId_eq_false_of (id : Int) (t : SceneNode)
    (h : ∀ d ∈ treeDatas t, d.id ≠ id) : containsId id t = false := by
  unfold containsId
  rw [List.any_eq_false]
  intro d hd
  simp [h d hd]

mutual

theorem getObjectByIdImpl_not_found (id : Int) :
    ∀ t, containsId id t = false → getObjectByIdImpl t id = none
  | .node d cs, h => by
    have h2 : ((d.id == id) = false)
        ∧ ((treeDatasList cs).any (fun d2 => d2.id == id) = false) := by
      have h3 := h
      unfold containsId at h3
      rw [treeDatas_node, List.any_cons, Bool.or_eq_false_iff] at h3
      exact h3
    unfold getObjectByIdImpl
    rw [h2.1]
    simp only [Bool.false_eq_true, if_false]
    exact getObjectByIdList_not_found id cs h2.2

theorem getObjectByIdList_not_found (id : Int) :
    ∀ cs, (treeDatasList cs).any (fun d => d.id == id) = false →
      getObjectByIdList cs id = none
  | .nil, _ => rfl
  | .cons c cs, h => by
    have h2 : ((treeDatas c).any (fun d => d.id == id) = false)
        ∧ ((treeDatasList cs).any (fun d => d.id == id) = false) := by
      have h3 := h
      rw [treeDatasList_cons, List.any_append, Bool.or_eq_false_iff] at h3
      exact h3
    unfold getObjectByIdList
    rw [getObjectByIdImpl_not_found id c h2.1]
    exact getObjectByIdList_not_found id cs h2.2

end

mutual

theorem updateById_not_found (id : Int) (f : SceneNode → SceneNode) :
    ∀ t, containsId id t = false → updateById id f t = t
  | .node d cs, h => by
    have h2 : ((d.id == id) = false)
        ∧ ((treeDatasList cs).any (fun d2 => d2.id == id) = false) := by
      have h3 := h
      unfold containsId at h3
      rw [treeDatas_node, List.any_cons, Bool.or_eq_false_iff] at h3
      exact h3
    unfold updateById
    rw [h2.1]
    simp only [Bool.false_eq_true, if_false, SceneNode.node.injEq, true_and]
    exact updateByIdList_not_found id f cs h2.2

theorem updateByIdList_not_found (id : Int) (f : SceneNode → SceneNode) :
    ∀ cs, (treeDatasList cs).any (fun d => d.id == id) = false →
      updateByIdList id f cs = cs
  | .nil, _ => rfl
  | .cons c cs, h => by
    have h2 : ((treeDatas c).any (fun d => d.id == id) = false)
        ∧ ((treeDatasList cs).any (fun d => d.id == id) = false) := by
      have h3 := h
      rw [treeDatasList_cons, List.any_append, Bool.or_eq_false_iff] at h3
      exact h3
    have hc : containsId id c = false := h2.1
    unfold updateByIdList
    rw [hc]
    simp only [Bool.false_eq_true, if_false, SceneNodeList.cons.injEq, true_and]
    exact updateByIdList_not_found id f cs h2.2

end

/-- C9: every ById operation variant keyed by an id that resolves to no
node of the scene is a no-op returning an empty result — the scene-wide
lookup fails and the scene is left unchanged — and, being a total
function, it never throws for an unresolved id. -/
theorem byId_not_found_noop (scene : SceneNode) (id : Int) (opacity : Rat)
    (includeObjectIds excludeObjectIds : Option (List Int))
    (materialInfoList : List MaterialInfo) (material : Material)
    (floors : List Nat) (makeUnmatchedInvisible : Bool)
    (h : ∀ d ∈ treeDatas scene, d.id ≠ id) :
    ObjectUtils.getObjectById scene id = none
  ∧ ObjectUtils.setObjectOpacityById scene id opacity includeObjectIds
      excludeObjectIds = (scene, [])
  ∧ ObjectUtils.revertObjectOpacityById scene id materialInfoList
      includeObjectIds excludeObjectIds = scene
  ∧ ObjectUtils.applyMaterialToObjectById scene id material includeObjectIds
      excludeObjectIds = scene
  ∧ ObjectUtils.revertAppliedMaterialToObjectById scene id includeObjectIds
      excludeObjectIds = scene
  ∧ ObjectUtils.setWireframeModeById scene id = scene
  ∧ ObjectUtils.revertWireframeModeById scene id = scene
  ∧ ObjectUtils.revertVisibleForFloorsById scene id = scene
  ∧ ObjectUtils.resetObjectStyleById scene id = scene
  ∧ ObjectUtils.setVisibleForFloors scene id floors makeUnmatchedInvisible
      = scene := by
  have hc : containsId id scene = false := containsId_eq_false_of id scene h
  have hg : ObjectUtils.getObjectById scene id = none :=
    getObjectByIdImpl_not_found id scene hc
  refine ⟨hg, ?_, ?_, ?_, ?_, ?_, ?_, ?_, ?_, ?_⟩
  · unfold ObjectUtils.setObjectOpacityById
    rw [hg]
  · exact updateById_not_found id _ scene hc
  · exact updateById_not_found id _ scene hc
  · exact updateById_not_found id _ scene hc
  · exact updateById_not_found id _ scene hc
  · exact updateById_not_found id _ scene hc
  · exact updateById_not_found id _ scene hc
  · exact updateById_not_found id _ scene hc
  · exact updateById_not_found id _ scene hc

/-- Witness for C9: id 99 resolves to no node of the sample scene and
every ById variant leaves it untouched. -/
theorem byId_not_found_noop_witness :
    ObjectUtils.getObjectById sampleScene 99 = none
  ∧ ObjectUtils.setObjectOpacityById sampleScene 99 0 none none
      = (sampleScene, [])
  ∧ ObjectUtils.revertObjectOpacityById sampleScene 99 [] none none
      = sampleScene
  ∧ ObjectUtils.applyMaterialToObjectById sampleScene 99 baseMaterial none none
      = sampleScene
  ∧ ObjectUtils.revertAppliedMaterialToObjectById sampleScene 99 none none
      = sampleScene
  ∧ ObjectUtils.setWireframeModeById sampleScene 99 = sampleScene
  ∧ ObjectUtils.revertWireframeModeById sampleScene 99 = sampleScene
  ∧ ObjectUtils.revertVisibleForFloorsById sampleScene 99 = sampleScene
  ∧ ObjectUtils.resetObjectStyleById sampleScene 99 = sampleScene
  ∧ ObjectUtils.setVisibleForFloors sampleScene 99 [1] true = sampleScene :=
  byId_not_found_noop sampleScene 99 0 none none [] baseMaterial [1] true
    (by decide)

theorem wireframe_step_round (d : NodeData)
    (h : d.userData.materialForWireframe = none) :
    ObjectUtils.revertWireframeModeStep
      (ObjectUtils.setWireframeModeStep (ObjectUtils.setWireframeModeStep d))
      = d := by
  obtain ⟨i, nm, vis, mat, ud, k, o⟩ := d
  obtain ⟨mfw, om, os, vf⟩ := ud
  cases mat with
  | none =>
    cases mfw with
    | none => rfl
    | some s => exact absurd h (by simp)
  | some m =>
    cases mfw with
    | none => rfl
    | some s => exact absurd h (by simp)

/-- C2: calling `setWireframeMode` twice in a row and then
`revertWireframeMode` once restores each material to the one present
before the first call (the materialForWireframe annotation is written
only if absent, so the second application does not overwrite the first
snapshot); stated for objects carrying no stale materialForWireframe
annotation. -/
theorem setWireframeMode_first_write_wins (t : SceneNode)
    (h : ∀ d ∈ treeDatas t, d.userData.materialForWireframe = none) :
    ObjectUtils.revertWireframeMode
      (ObjectUtils.setWireframeMode (ObjectUtils.setWireframeMode t)) = t := by
  unfold ObjectUtils.revertWireframeMode ObjectUtils.setWireframeMode
  rw [mapNodes_mapNodes, mapNodes_mapNodes]
  exact mapNodes_eq_self _ t (fun d hd => wireframe_step_round d (h d hd))

/-- Witness for C2 at the concrete sample scene. -/
theorem setWireframeMode_first_write_wins_witness :
    ObjectUtils.revertWireframeMode
      (ObjectUtils.setWireframeMode (ObjectUtils.setWireframeMode sampleScene))
      = sampleScene :=
  setWireframeMode_first_write_wins sampleScene (by decide)

theorem revertVFF_step_of_none (d : NodeData)
    (h : d.userData.visibleForFloorsOriginal = none) :
    ObjectUtils.revertVisibleForFloorsStep d = d := by
  unfold ObjectUtils.revertVisibleForFloorsStep
  rw [h]

theorem vff_step_round (tokens : List String) (b : Bool) (d : NodeData)
    (h : d.userData.visibleForFloorsOriginal = none) :
    ObjectUtils.revertVisibleForFloorsStep
      (ObjectUtils.setVisibleForFloorsStep tokens b d) = d := by
  obtain ⟨i, nm, vis, mat, ud, k, o⟩ := d
  obtain ⟨mfw, om, os, vf⟩ := ud
  cases vf with
  | some s => exact absurd h (by simp)
  | none =>
    cases hm : ObjectUtils.matchFloors nm tokens with
    | true =>
      simp [ObjectUtils.setVisibleForFloorsStep,
        ObjectUtils.revertVisibleForFloorsStep, hm]
    | false =>
      cases b <;>
        simp [ObjectUtils.setVisibleForFloorsStep,
          ObjectUtils.revertVisibleForFloorsStep, hm]

mutual

theorem revertVFF_updateById (tokens : List String) (b : Bool) (oid : Int) :
    ∀ t, (∀ d ∈ treeDatas t, d.userData.visibleForFloorsOriginal = none) →
      ObjectUtils.revertVisibleForFloors
        (updateById oid
          (mapNodes (ObjectUtils.setVisibleForFloorsStep tokens b)) t) = t
  | .node d cs, h => by
    unfold updateById
    cases hid : d.id == oid with
    | true =>
      simp only [if_true]
      unfold ObjectUtils.revertVisibleForFloors
      rw [mapNodes_mapNodes]
      exact mapNodes_eq_self _ _ (fun d2 hd2 => vff_step_round tokens b d2 (h d2 hd2))
    | false =>
      simp only [Bool.false_eq_true, if_false]
      unfold ObjectUtils.revertVisibleForFloors
      simp only [mapNodes, SceneNode.node.injEq]
      refine ⟨revertVFF_step_of_none d (h d (self_mem_treeDatas d cs)), ?_⟩
      exact revertVFF_updateByIdList tokens b oid cs (fun d2 hd2 => h d2 (by
        rw [treeDatas_node]
        exact List.mem_cons_of_mem _ hd2))

theorem revertVFF_updateByIdList (tokens : List String) (b : Bool) (oid : Int) :
    ∀ cs, (∀ d ∈ treeDatasList cs, d.userData.visibleForFloorsOriginal = none) →
      mapNodesList ObjectUtils.revertVisibleForFloorsStep
        (updateByIdList oid
          (mapNodes (ObjectUtils.setVisibleForFloorsStep tokens b)) cs) = cs
  | .nil, _ => rfl
  | .cons c cs, h => by
    have hhead : ∀ d ∈ treeDatas c, d.userData.visibleForFloorsOriginal = none :=
      fun d hd => h d (by
        rw [treeDatasList_cons]
        exact List.mem_append.2 (Or.inl hd))
    have htail : ∀ d ∈ treeDatasList cs, d.userData.visibleForFloorsOriginal = none :=
      fun d hd => h d (by
        rw [treeDatasList_cons]
        exact List.mem_append.2 (Or.inr hd))
    unfold updateByIdList
    cases hc : containsId oid c with
    | true =>
      simp only [if_true, mapNodesList, SceneNodeList.cons.injEq]
      refine ⟨?_, ?_⟩
      · have hrt := revertVFF_updateById tokens b oid c hhead
        unfold ObjectUtils.revertVisibleForFloors at hrt
        exact hrt
      · exact mapNodesList_eq_self _ cs
          (fun d hd => revertVFF_step_of_none d (htail d hd))
    | false =>
      simp only [Bool.false_eq_true, if_false, mapNodesList,
        SceneNodeList.cons.injEq]
      refine ⟨?_, ?_⟩
      · exact mapNodes_eq_self _ c
          (fun d hd => revertVFF_step_of_none d (hhead d hd))
      · exact revertVFF_updateByIdList tokens b oid cs htail

end

/-- C4: after setVisibleForFloors on the concrete scene with nodes on
floors 1F and 2F, the 1F node is visible and the 2F node is invisible;
a subsequent revertVisibleForFloors restores every node's visibility to
exactly its pre-call value (restoring from the visibleForFloorsOriginal
annotation and clearing it, leaving nodes without the annotation as-is);
the round trip is exact on every scene carrying no stale annotation. -/
theorem setVisibleForFloors_round_trip :
    (∀ (t : SceneNode) (objectId : Int) (floors : List Nat)
      (makeUnmatchedInvisible : Bool),
      (∀ d ∈ treeDatas t, d.userData.visibleForFloorsOriginal = none) →
      ObjectUtils.revertVisibleForFloors
        (ObjectUtils.setVisibleForFloors t objectId floors
          makeUnmatchedInvisible) = t)
  ∧ ObjectUtils.setVisibleForFloors floorScene 7 [1] true
      = .node { id := 7, name := "building", visible := false,
                userData := { visibleForFloorsOriginal := some true } }
          (.ofList
            [.node { id := 8, name := "1F(a)", visible := true,
                     userData := { visibleForFloorsOriginal := some false } } .nil,
             .node { id := 9, name := "2F(b)", visible := false,
                     userData := { visibleForFloorsOriginal := some true } } .nil])
  ∧ ObjectUtils.revertVisibleForFloors
      (ObjectUtils.setVisibleForFloors floorScene 7 [1] true) = floorScene := by
  refine ⟨?_, by decide, by decide⟩
  intro t oid floors b h
  unfold ObjectUtils.setVisibleForFloors
  exact revertVFF_updateById (floors.map ObjectUtils.floorName) b oid t h

/-- Witness for C4 at the concrete floor scene. -/
theorem setVisibleForFloors_round_trip_witness :
    ObjectUtils.revertVisibleForFloors
      (ObjectUtils.setVisibleForFloors floorScene 7 [1] true) = floorScene :=
  setVisibleForFloors_round_trip.1 floorScene 7 [1] true (by decide)

theorem find?_filterMap_of_nodup (f : NodeData → Option MaterialInfo)
    (hid : ∀ d i, f d = some i → i.id = d.id) :
    ∀ l : List NodeData, (l.map (fun d => d.id)).Nodup →
      ∀ d ∈ l, (l.filterMap f).find? (fun i => i.id == d.id) = f d := by
  intro l
  induction l with
  | nil =>
    intro _ d hd
    cases hd
  | cons d0 rest ih =>
    intro hnd d hd
    rw [List.map_cons, List.nodup_cons] at hnd
    obtain ⟨hd0, hndrest⟩ := hnd
    rw [List.filterMap_cons]
    have hmemrest : ∀ j ∈ rest.filterMap f, (j.id == d0.id) = false := by
      intro j hj
      obtain ⟨d2, hd2, hfd2⟩ := List.mem_filterMap.1 hj
      have : j.id = d2.id := hid d2 j hfd2
      have hne : j.id ≠ d0.id := by
        intro he
        exact hd0 (by
          rw [← he, this]
          exact List.mem_map_of_mem _ hd2)
      simp [hne]
    rcases List.mem_cons.1 hd with rfl | hdrest
    · cases hf : f d with
      | some i =>
        rw [List.find?_cons_of_pos]
        simp [hid d i hf]
      | none =>
        rw [List.find?_eq_none]
        intro j hj
        simp [hmemrest j hj]
    · have hdid : d.id ∈ rest.map (fun d2 => d2.id) := List.mem_map_of_mem _ hdrest
      cases hf : f d0 with
      | some i0 =>
        have hi0 : i0.id = d0.id := hid d0 i0 hf
        have hne : (i0.id == d.id) = false := by
          have : i0.id ≠ d.id := by
            intro he
            exact hd0 (by rw [← hi0, he]; exact hdid)
          simp [this]
        rw [List.find?_cons_of_neg]
        · exact ih hndrest d hdrest
        · simp [hne]
      | none =>
        exact ih hndrest d hdrest

theorem opacity_snap_id (opacity : Rat)
    (includeObjectIds excludeObjectIds : Option (List Int))
    (d : NodeData) (i : MaterialInfo)
    (h : (ObjectUtils.setObjectOpacityStep opacity includeObjectIds
      excludeObjectIds d).2 = some i) : i.id = d.id := by
  obtain ⟨i0, nm, vis, mat, ud, k, o⟩ := d
  cases mat with
  | none =>
    unfold ObjectUtils.setObjectOpacityStep at h
    dsimp only at h
    cases h
  | some m =>
    unfold ObjectUtils.setObjectOpacityStep at h
    dsimp only at h
    by_cases hinc : included (some i0) includeObjectIds excludeObjectIds = true
    · rw [if_pos hinc] at h
      dsimp only at h
      cases h
      rfl
    · rw [if_neg hinc] at h
      dsimp only at h
      cases h

theorem opacity_step_round (opacity : Rat)
    (includeObjectIds excludeObjectIds : Option (List Int))
    (infos : List MaterialInfo) (d : NodeData)
    (hf : infos.find? (fun i => i.id == d.id)
      = (ObjectUtils.setObjectOpacityStep opacity includeObjectIds
          excludeObjectIds d).2) :
    ObjectUtils.revertObjectOpacityStep infos includeObjectIds excludeObjectIds
      ((ObjectUtils.setObjectOpacityStep opacity includeObjectIds
        excludeObjectIds d).1) = d := by
  obtain ⟨i, nm, vis, mat, ud, k, o⟩ := d
  cases mat with
  | none =>
    unfold ObjectUtils.setObjectOpacityStep at hf ⊢
    dsimp only at hf ⊢
    unfold ObjectUtils.revertObjectOpacityStep
    rw [hf]
  | some m =>
    obtain ⟨op, tr, sd, wf⟩ := m
    unfold ObjectUtils.setObjectOpacityStep at hf ⊢
    dsimp only at hf ⊢
    by_cases hinc : included (some i) includeObjectIds excludeObjectIds = true
    · rw [if_pos hinc] at hf ⊢
      dsimp only at hf ⊢
      unfold ObjectUtils.revertObjectOpacityStep
      dsimp only
      rw [hf]
      dsimp only
      rw [if_pos hinc]
    · rw [if_neg hinc] at hf ⊢
      dsimp only at hf ⊢
      unfold ObjectUtils.revertObjectOpacityStep
      dsimp only
      rw [hf]

theorem opacity_revert_self (opacity : Rat)
    (includeObjectIds excludeObjectIds : Option (List Int))
    (infos : List MaterialInfo) (d : NodeData)
    (hf : infos.find? (fun i => i.id == d.id)
      = (ObjectUtils.setObjectOpacityStep opacity includeObjectIds
          excludeObjectIds d).2) :
    ObjectUtils.revertObjectOpacityStep infos includeObjectIds excludeObjectIds
      d = d := by
  obtain ⟨i, nm, vis, mat, ud, k, o⟩ := d
  cases mat with
  | none =>
    unfold ObjectUtils.setObjectOpacityStep at hf
    dsimp only at hf
    unfold ObjectUtils.revertObjectOpacityStep
    rw [hf]
  | some m =>
    obtain ⟨op, tr, sd, wf⟩ := m
    unfold ObjectUtils.setObjectOpacityStep at hf
    dsimp only at hf
    by_cases hinc : included (some i) includeObjectIds excludeObjectIds = true
    · rw [if_pos hinc] at hf
      dsimp only at hf
      unfold ObjectUtils.revertObjectOpacityStep
      dsimp only
      rw [hf]
      dsimp only
      rw [if_pos hinc]
    · rw [if_neg hinc] at hf
      dsimp only at hf
      unfold ObjectUtils.revertObjectOpacityStep
      dsimp only
      rw [hf]

/-- C1: for every scene with distinct node ids, reverting with the
snapshot list returned by setObjectOpacity (under the same filters)
restores every affected node's opacity, transparent flag, and side to
exactly their pre-call values — the whole tree is restored — and
reverting a second time with the same snapshot list leaves all state
unchanged. -/
theorem setObjectOpacity_revert_exact (t : SceneNode) (opacity : Rat)
    (includeObjectIds excludeObjectIds : Option (List Int))
    (h : ((treeDatas t).map (fun d => d.id)).Nodup) :
    ObjectUtils.revertObjectOpacity
        (ObjectUtils.setObjectOpacity t opacity includeObjectIds
          excludeObjectIds).1
        (ObjectUtils.setObjectOpacity t opacity includeObjectIds
          excludeObjectIds).2
        includeObjectIds excludeObjectIds = t
  ∧ ObjectUtils.revertObjectOpacity t
        (ObjectUtils.setObjectOpacity t opacity includeObjectIds
          excludeObjectIds).2
        includeObjectIds excludeObjectIds = t := by
  have hfind : ∀ d ∈ treeDatas t,
      ((ObjectUtils.setObjectOpacity t opacity includeObjectIds
        excludeObjectIds).2).find? (fun i => i.id == d.id)
        = (ObjectUtils.setObjectOpacityStep opacity includeObjectIds
            excludeObjectIds d).2 := by
    intro d hd
    have hsnd := mapCollect_snd
      (ObjectUtils.setObjectOpacityStep opacity includeObjectIds excludeObjectIds) t
    rw [show (ObjectUtils.setObjectOpacity t opacity includeObjectIds
      excludeObjectIds).2 = (mapCollect (ObjectUtils.setObjectOpacityStep
        opacity includeObjectIds excludeObjectIds) t).2 from rfl, hsnd]
    exact find?_filterMap_of_nodup _
      (opacity_snap_id opacity includeObjectIds excludeObjectIds)
      (treeDatas t) h d hd
  constructor
  · have hfst := mapCollect_fst
      (ObjectUtils.setObjectOpacityStep opacity includeObjectIds excludeObjectIds) t
    unfold ObjectUtils.revertObjectOpacity
    rw [show (ObjectUtils.setObjectOpacity t opacity includeObjectIds
      excludeObjectIds).1 = (mapCollect (ObjectUtils.setObjectOpacityStep
        opacity includeObjectIds excludeObjectIds) t).1 from rfl, hfst,
      mapNodes_mapNodes]
    exact mapNodes_eq_self _ t (fun d hd =>
      opacity_step_round opacity includeObjectIds excludeObjectIds _ d
        (hfind d hd))
  · unfold ObjectUtils.revertObjectOpacity
    exact mapNodes_eq_self _ t (fun d hd =>
      opacity_revert_self opacity includeObjectIds excludeObjectIds _ d
        (hfind d hd))

/-- Witness for C1 at the concrete sample scene. -/
theorem setObjectOpacity_revert_exact_witness :
    ObjectUtils.revertObjectOpacity
        (ObjectUtils.setObjectOpacity sampleScene 0 (some [1, 2]) none).1
        (ObjectUtils.setObjectOpacity sampleScene 0 (some [1, 2]) none).2
        (some [1, 2]) none = sampleScene
  ∧ ObjectUtils.revertObjectOpacity sampleScene
        (ObjectUtils.setObjectOpacity sampleScene 0 (some [1, 2]) none).2
        (some [1, 2]) none = sampleScene :=
  setObjectOpacity_revert_exact sampleScene 0 (some [1, 2]) none (by decide)

theorem createOutlines_outlineChild (options : Option OutlineOptions) :
    createOutlines outlineChild options = (outlineChild, []) := rfl

theorem createOutlinesList_cons_fst (c : SceneNode) (cs : SceneNodeList)
    (options : Option OutlineOptions) :
    (createOutlinesList (.cons c cs) options).1
      = .cons (createOutlines c options).1 (createOutlinesList cs options).1 := rfl

theorem isOutlineTop_createOutlines (options : Option OutlineOptions) :
    ∀ c, isOutlineTop (createOutlines c options).1 = isOutlineTop c
  | .node d cs => by
    unfold createOutlines
    dsimp only
    split <;> rfl

theorem anyOutlineChild_createOutlinesList (options : Option OutlineOptions) :
    ∀ cs, anyOutlineChild (createOutlinesList cs options).1 = anyOutlineChild cs
  | .nil => rfl
  | .cons c cs => by
    rw [createOutlinesList_cons_fst]
    unfold anyOutlineChild
    rw [isOutlineTop_createOutlines options c,
      anyOutlineChild_createOutlinesList options cs]

theorem isNil_createOutlinesList (options : Option OutlineOptions) :
    ∀ cs, ((createOutlinesList cs options).1).isNil = cs.isNil
  | .nil => rfl
  | .cons _ _ => rfl

theorem eligibleForOutline_createOutlinesList (options : Option OutlineOptions)
    (d : NodeData) (cs : SceneNodeList) :
    eligibleForOutline options d (createOutlinesList cs options).1
      = eligibleForOutline options d cs := by
  unfold eligibleForOutline
  rw [isNil_createOutlinesList options cs]

theorem createOutlines_node (options : Option OutlineOptions) (d : NodeData)
    (cs : SceneNodeList) :
    createOutlines (.node d cs) options
      = if (eligibleForOutline options d cs && !anyOutlineChild cs) = true
        then (.node d (((createOutlinesList cs options).1).append
                (.cons outlineChild .nil)),
              (createOutlinesList cs options).2 ++ [outlineChild])
        else (.node d (createOutlinesList cs options).1,
              (createOutlinesList cs options).2) := rfl

theorem createOutlinesList_append_fst (options : Option OutlineOptions) :
    ∀ l1 l2, (createOutlinesList (l1.append l2) options).1
      = ((createOutlinesList l1 options).1).append
          ((createOutlinesList l2 options).1)
  | .nil, l2 => rfl
  | .cons c cs, l2 => by
    simp only [SceneNodeList.append]
    rw [createOutlinesList_cons_fst,
      createOutlinesList_append_fst options cs l2]

theorem anyOutlineChild_append :
    ∀ l1 l2, anyOutlineChild (l1.append l2)
      = (anyOutlineChild l1 || anyOutlineChild l2)
  | .nil, l2 => by
    show anyOutlineChild l2 = (anyOutlineChild .nil || anyOutlineChild l2)
    simp [anyOutlineChild]
  | .cons c cs, l2 => by
    show (isOutlineTop c || anyOutlineChild (cs.append l2))
      = ((isOutlineTop c || anyOutlineChild cs) || anyOutlineChild l2)
    rw [anyOutlineChild_append cs l2, Bool.or_assoc]

mutual

theorem createOutlines_idem (options : Option OutlineOptions) :
    ∀ t, (createOutlines (createOutlines t options).1 options).1
      = (createOutlines t options).1
  | .node d cs => by
    cases hguard : (eligibleForOutline options d cs && !anyOutlineChild cs) with
    | true =>
      rw [createOutlines_node, if_pos hguard]
      dsimp only
      have hany : anyOutlineChild
          (((createOutlinesList cs options).1).append (.cons outlineChild .nil))
          = true := by
        rw [anyOutlineChild_append]
        simp [anyOutlineChild, isOutlineTop, outlineChild]
      have hg2 : (eligibleForOutline options d
          (((createOutlinesList cs options).1).append (.cons outlineChild .nil))
          && !anyOutlineChild (((createOutlinesList cs options).1).append
                (.cons outlineChild .nil))) = false := by
        rw [hany]
        simp
      rw [createOutlines_node, if_neg (by simp [hg2])]
      dsimp only
      rw [createOutlinesList_append_fst, createOutlinesList_idem options cs]
      rfl
    | false =>
      rw [createOutlines_node, if_neg (by simp [hguard])]
      dsimp only
      rw [createOutlines_node]
      have hg2 : (eligibleForOutline options d (createOutlinesList cs options).1
          && !anyOutlineChild (createOutlinesList cs options).1) = false := by
        rw [eligibleForOutline_createOutlinesList,
          anyOutlineChild_createOutlinesList]
        exact hguard
      rw [if_neg (by simp [hg2])]
      dsimp only
      rw [createOutlinesList_idem options cs]

theorem createOutlinesList_idem (options : Option OutlineOptions) :
    ∀ cs, (createOutlinesList (createOutlinesList cs options).1 options).1
      = (createOutlinesList cs options).1
  | .nil => rfl
  | .cons c cs => by
    rw [createOutlinesList_cons_fst, createOutlinesList_cons_fst,
      createOutlines_idem options c, createOutlinesList_idem options cs]

end

theorem hasOutline_createOutlines (options : Option OutlineOptions)
    (d : NodeData) (cs : SceneNodeList)
    (h : eligibleForOutline options d cs = true) :
    hasOutline (createOutlines (.node d cs) options).1 false = true := by
  rw [createOutlines_node]
  cases ha : anyOutlineChild cs with
  | true =>
    rw [if_neg (by simp [ha])]
    dsimp only
    unfold hasOutline
    rw [anyOutlineChild_createOutlinesList options cs, ha]
    rfl
  | false =>
    rw [if_pos (by simp [h, ha])]
    dsimp only
    unfold hasOutline
    rw [anyOutlineChild_append]
    simp [anyOutlineChild, isOutlineTop, outlineChild]

theorem isOutlineTop_removeOutlines :
    ∀ c, isOutlineTop (removeOutlines c) = isOutlineTop c
  | .node _ _ => rfl

mutual

theorem hasOutline_removeOutlines :
    ∀ (t : SceneNode) (b : Bool), hasOutline (removeOutlines t) b = false
  | .node d cs, b => by
    unfold removeOutlines hasOutline
    rw [anyOutlineChild_removeOutlinesList cs, hasOutlineList_removeOutlinesList cs]
    simp

theorem anyOutlineChild_removeOutlinesList :
    ∀ cs, anyOutlineChild (removeOutlinesList cs) = false
  | .nil => rfl
  | .cons c cs => by
    unfold removeOutlinesList
    cases hc : isOutlineTop c with
    | true =>
      rw [if_pos rfl]
      exact anyOutlineChild_removeOutlinesList cs
    | false =>
      rw [if_neg (by simp)]
      unfold anyOutlineChild
      rw [isOutlineTop_removeOutlines c, hc,
        anyOutlineChild_removeOutlinesList cs]
      rfl

theorem hasOutlineList_removeOutlinesList :
    ∀ cs, hasOutlineList (removeOutlinesList cs) = false
  | .nil => rfl
  | .cons c cs => by
    unfold removeOutlinesList
    cases hc : isOutlineTop c with
    | true =>
      rw [if_pos rfl]
      exact hasOutlineList_removeOutlinesList cs
    | false =>
      rw [if_neg (by simp)]
      unfold hasOutlineList
      rw [hasOutline_removeOutlines c true, hasOutlineList_removeOutlinesList cs]
      rfl

end

/-- A mesh whose only line child is an unrelated, non-outline line. -/
def meshWithPlainLine : SceneNode :=
  .node { id := 42, material := some baseMaterial, kind := NodeKind.Mesh }
    (.cons (.node { id := 43, kind := NodeKind.Line } .nil) .nil)

/-- C7: every mesh carries at most one outline-decoration child:
createOutlines is idempotent, so a second call without an intervening
removeOutlines creates no duplicate outline child; hasOutline is true
after createOutlines on an eligible mesh, false everywhere after
removeOutlines, and false for a mesh whose only line children are
unrelated non-outline lines. -/
theorem outline_invariants :
    (∀ (options : Option OutlineOptions) (t : SceneNode),
      (createOutlines (createOutlines t options).1 options).1
        = (createOutlines t options).1)
  ∧ (∀ (options : Option OutlineOptions) (d : NodeData) (cs : SceneNodeList),
      eligibleForOutline options d cs = true →
      hasOutline (createOutlines (.node d cs) options).1 false = true)
  ∧ (∀ (t : SceneNode) (checkChildren : Bool),
      hasOutline (removeOutlines t) checkChildren = false)
  ∧ hasOutline meshWithPlainLine true = false :=
  ⟨fun options t => createOutlines_idem options t,
   fun options d cs h => hasOutline_createOutlines options d cs h,
   fun t b => hasOutline_removeOutlines t b,
   by decide⟩

/-- Witness for C7 at a concrete mesh leaf. -/
theorem outline_invariants_witness :
    (createOutlines (createOutlines (meshLeaf 5) none).1 none).1
      = (createOutlines (meshLeaf 5) none).1
  ∧ hasOutline (createOutlines
      (.node { id := 5, material := some baseMaterial, kind := NodeKind.Mesh }
        .nil) none).1 false = true
  ∧ hasOutline (removeOutlines (createOutlines (meshLeaf 5) none).1) true = false
  ∧ hasOutline meshWithPlainLine true = false := by
  obtain ⟨h1, h2, h3, h4⟩ := outline_invariants
  exact ⟨h1 none (meshLeaf 5), h2 none _ .nil (by decide), h3 _ true, h4⟩

/-- Modelled from the spec's words, for refinement comparison only
(claim C6): the wireframe operation as section 6 of the spec describes
it, taking the optional includeObjectIds / excludeObjectIds filters with
section 4.1 semantics and mutating only admitted nodes.  The operation
actually declared in ObjectUtils.d.ts line 84 takes no filter
parameters. -/
def setWireframeModeSpec (object : SceneNode)
    (includeObjectIds excludeObjectIds : Option (List Int)) : SceneNode :=
  mapNodes
    (fun d => if included (some d.id) includeObjectIds excludeObjectIds
      then ObjectUtils.setWireframeModeStep d else d)
    object

/-- Counterexample for C6: the filter with excludeObjectIds [2] does not
admit node 2, yet setWireframeMode — declared without filter
parameters — mutates the sample scene, and does not coincide with the
spec-described filtered operation under those filters: it converts the
material of the excluded node 2 as well. -/
theorem setWireframeMode_not_filtered :
    included (some 2) none (some [2]) = false
  ∧ ObjectUtils.setWireframeMode sampleScene ≠ sampleScene
  ∧ ObjectUtils.setWireframeMode sampleScene
      ≠ setWireframeModeSpec sampleScene none (some [2])
  ∧ (treeDatas (ObjectUtils.setWireframeMode sampleScene)).map
      (fun d => d.material)
      = [some ObjectUtils.WIREFRAME_MATERIAL, some ObjectUtils.WIREFRAME_MATERIAL,
         some ObjectUtils.WIREFRAME_MATERIAL]
  ∧ (treeDatas (setWireframeModeSpec sampleScene none (some [2]))).map
      (fun d => d.material)
      = [some ObjectUtils.WIREFRAME_MATERIAL, some baseMaterial,
         some ObjectUtils.WIREFRAME_MATERIAL] := by
  refine ⟨by decide, by decide, by decide, by decide, by decide⟩

/-- C6 as amended: the opacity and material-substitution operations
accept the optional include / exclude filters and leave every node the
filters do not admit unchanged, while setDoubleSidedMaterialToObject and
setWireframeMode, declared without filter parameters, affect every
material-bearing node of the targeted subtree unconditionally; each
operation maps the given subtree shape-preservingly (node by node) and
touches nothing outside it. -/
theorem scoped_mutation_semantics :
    (∀ (t : SceneNode) (opacity : Rat) (inc exc : Option (List Int)),
      List.Forall₂ (fun d d2 => included (some d.id) inc exc = false → d2 = d)
        (treeDatas t)
        (treeDatas (ObjectUtils.setObjectOpacity t opacity inc exc).1))
  ∧ (∀ (t : SceneNode) (material : Material) (inc exc : Option (List Int)),
      List.Forall₂ (fun d d2 => included (some d.id) inc exc = false → d2 = d)
        (treeDatas t)
        (treeDatas (ObjectUtils.applyMaterialToObject t material inc exc)))
  ∧ (∀ t : SceneNode,
      List.Forall₂ (fun d d2 => d.material.isSome = true →
          d2.material = some ObjectUtils.WIREFRAME_MATERIAL)
        (treeDatas t) (treeDatas (ObjectUtils.setWireframeMode t)))
  ∧ (∀ t : SceneNode,
      List.Forall₂ (fun d d2 => ∀ m, d.material = some m →
          d2.material = some { m with side := Side.DoubleSide })
        (treeDatas t)
        (treeDatas (ObjectUtils.setDoubleSidedMaterialToObject t))) := by
  refine ⟨?_, ?_, ?_, ?_⟩
  · intro t opacity inc exc
    rw [show (ObjectUtils.setObjectOpacity t opacity inc exc).1
        = mapNodes (fun d =>
            (ObjectUtils.setObjectOpacityStep opacity inc exc d).1) t
      from mapCollect_fst _ t]
    rw [treeDatas_mapNodes, List.forall₂_map_right_iff, List.forall₂_same]
    intro d _ hni
    unfold ObjectUtils.setObjectOpacityStep
    cases hm : d.material with
    | none => rfl
    | some m =>
      dsimp only
      rw [if_neg (by simp [hni])]
  · intro t material inc exc
    unfold ObjectUtils.applyMaterialToObject
    rw [treeDatas_mapNodes, List.forall₂_map_right_iff, List.forall₂_same]
    intro d _ hni
    unfold ObjectUtils.applyMaterialToObjectStep
    cases hm : d.material with
    | none => rfl
    | some m =>
      dsimp only
      rw [if_neg (by simp [hni])]
  · intro t
    unfold ObjectUtils.setWireframeMode
    rw [treeDatas_mapNodes, List.forall₂_map_right_iff, List.forall₂_same]
    intro d _ hsome
    unfold ObjectUtils.setWireframeModeStep
    cases hm : d.material with
    | none => rw [hm] at hsome; cases hsome
    | some m => rfl
  · intro t
    unfold ObjectUtils.setDoubleSidedMaterialToObject
    rw [treeDatas_mapNodes, List.forall₂_map_right_iff, List.forall₂_same]
    intro d _ m hm
    unfold ObjectUtils.setDoubleSidedMaterialToObjectStep
    rw [hm]

/-- Witness for the amended C6 at the concrete sample scene. -/
theorem scoped_mutation_semantics_witness :
    List.Forall₂
      (fun d d2 => included (some d.id) (some [1]) none = false → d2 = d)
      (treeDatas sampleScene)
      (treeDatas (ObjectUtils.setObjectOpacity sampleScene 0 (some [1]) none).1)
  ∧ List.Forall₂
      (fun d d2 => d.material.isSome = true →
        d2.material = some ObjectUtils.WIREFRAME_MATERIAL)
      (treeDatas sampleScene)
      (treeDatas (ObjectUtils.setWireframeMode sampleScene)) := by
  obtain ⟨h1, _, h3, _⟩ := scoped_mutation_semantics
  exact ⟨h1 sampleScene 0 (some [1]) none, h3 sampleScene⟩

/-- Witness for C3: the predicate admits node 1 under include [1, 2] with
exclude [2]. -/
theorem nodeFilter_semantics_witness :
    included (some 1) (some [1, 2]) (some [2]) = true :=
  (nodeFilter_semantics.1 1 [1, 2] [2]).2 ⟨Or.inr (by decide), by decide⟩

/-- Witness for C5: the token 5F itself is the one string matching
5F(A). -/
theorem matchFloor_precision_witness :
    ObjectUtils.matchFloor "5F(A)" "5F" = true :=
  (matchFloor_precision.2.2 "5F").2 rfl
